import Mathlib

/-!
Verification development for the OpenAPI → MCP-server configuration converter
(`pkg/converter/converter.go` together with the data model in
`pkg/models/mcp_config.go`).

The converter is embedded shallowly:

* Go maps (`map[string]T`) are modelled as association lists
  `List (String × T)`; Go's map iteration visits entries in an arbitrary
  order, which the model fixes to list order.
* A `*Ref` whose `.Value` nil-check always accompanies the ref nil-check in
  the source (`SchemaRef`, `RequestBodyRef`, `ResponseRef`, parameter
  `SchemaRef`) is collapsed into a single `Option`.
* `map[string]any` / `interface{}` values are modelled by the closed dynamic
  value types `JsonVal` (JSON data) and `DynVal` (what the converter actually
  stores in `Arg.Items` / `Arg.Properties`).
* The external collaborators (the document parser package, `encoding/json`
  for the annotations fragment, and the template file read + YAML parse) are
  modelled as data carried by `ParserHandle`: per-operation annotation parse
  outcome, and the template file's read/parse outcome.
* `sort.Slice`/`sort.Strings` with a `<` comparator on strings is modelled by
  the insertion sort `sortByKey` below (byte-wise `<` on UTF-8 bytes agrees
  with character-wise `<` on the ASCII data appearing here).
-/

namespace OpenapiToMcp

/-! ### String primitives (Go `strings` package, restricted to what the converter uses) -/

/-- Character-list lexicographic strict order; model of Go's `<` on strings. -/
def ltChars : List Char → List Char → Bool
  | [], [] => false
  | [], _ :: _ => true
  | _ :: _, [] => false
  | a :: as, b :: bs => if a < b then true else if b < a then false else ltChars as bs

/-- Go's `a < b` on strings. -/
def strLtB (a b : String) : Bool := ltChars a.data b.data

/-- Non-strict companion of `strLtB`. -/
def strLeB (a b : String) : Bool := !(strLtB b a)

/-- Model of `strings.ToUpper` (ASCII inputs only appear here). -/
def goToUpper (s : String) : String := ⟨s.data.map Char.toUpper⟩

/-- Model of `strings.HasPrefix`. -/
def goHasPre (s pre : String) : Bool := List.isPrefixOf pre.data s.data

/-- Helper for `goContains`: does `needle` occur inside the character list. -/
def charsContain (needle : List Char) : List Char → Bool
  | [] => List.isPrefixOf needle []
  | c :: rest => List.isPrefixOf needle (c :: rest) || charsContain needle rest

/-- Model of `strings.Contains`. -/
def goContains (s sub : String) : Bool := charsContain sub.data s.data

/-! ### Sorting (model of `sort.Slice` / `sort.Strings` with a `<` comparator on a string key) -/

/-- Insert `a` into `l` keeping ascending `key` order. -/
def insertSorted (key : α → String) (a : α) : List α → List α
  | [] => [a]
  | b :: l => if strLeB (key a) (key b) then a :: b :: l else b :: insertSorted key a l

/-- Insertion sort ascending by `key`; the model of the converter's
`sort.Slice(..., func(i, j) { return key(x[i]) < key(x[j]) })` calls. -/
def sortByKey (key : α → String) : List α → List α
  | [] => []
  | a :: l => insertSorted key a (sortByKey key l)

/-- Adjacent-pairs sortedness check (ascending by `key`). -/
def isSortedByKey (key : α → String) : List α → Bool
  | [] => true
  | [_] => true
  | a :: b :: l => strLeB (key a) (key b) && isSortedByKey key (b :: l)

/-! ### Dynamic values -/

/-- JSON data (`any` values coming from the document: enums, defaults,
annotation values). -/
inductive JsonVal where
  | str (s : String)
  | num (n : Int)
  | boolean (b : Bool)
  | arr (xs : List JsonVal)
  | obj (fields : List (String × JsonVal))
  | null

/-- The OpenAPI schema node (`openapi3.Schema`), restricted to the fields the
converter reads.  `properties` entries keep the `SchemaRef`-with-nil-`Value`
possibility (`Option Schema`) because the source checks it; `items` and the
`allOf` members collapse ref and value (the source dereferences `allOf`
members unconditionally). -/
inductive Schema where
  | mk (type title description : String)
       (enum : List JsonVal) (default : Option JsonVal)
       (required : List String)
       (properties : List (String × Option Schema))
       (items : Option Schema)
       (allOf : List Schema)
       (minItems : Nat)

def Schema.type : Schema → String
  | .mk t _ _ _ _ _ _ _ _ _ => t

def Schema.title : Schema → String
  | .mk _ t _ _ _ _ _ _ _ _ => t

def Schema.description : Schema → String
  | .mk _ _ d _ _ _ _ _ _ _ => d

def Schema.enum : Schema → List JsonVal
  | .mk _ _ _ e _ _ _ _ _ _ => e

def Schema.default : Schema → Option JsonVal
  | .mk _ _ _ _ d _ _ _ _ _ => d

def Schema.required : Schema → List String
  | .mk _ _ _ _ _ r _ _ _ _ => r

def Schema.properties : Schema → List (String × Option Schema)
  | .mk _ _ _ _ _ _ p _ _ _ => p

def Schema.items : Schema → Option Schema
  | .mk _ _ _ _ _ _ _ i _ _ => i

def Schema.allOf : Schema → List Schema
  | .mk _ _ _ _ _ _ _ _ a _ => a

def Schema.minItems : Schema → Nat
  | .mk _ _ _ _ _ _ _ _ _ m => m

/-- The `any` values the converter stores into `Arg.Items` / `Arg.Properties`:
strings, numbers (`MinItems`), JSON data, raw schema property maps
(`Items["properties"] = schema.Properties`) and nested string-keyed maps. -/
inductive DynVal where
  | str (s : String)
  | natv (n : Nat)
  | json (j : JsonVal)
  | jsonArr (xs : List JsonVal)
  | obj (fields : List (String × DynVal))
  | schemaProps (props : List (String × Option Schema))

/-- Go map assignment `m[k] = v` on an association list: replace in place when
the key exists, append otherwise. -/
def mapSet (m : List (String × α)) (k : String) (v : α) : List (String × α) :=
  if m.any (fun p => p.1 == k) then
    m.map (fun p => if p.1 == k then (k, v) else p)
  else m ++ [(k, v)]

/-- Go map lookup `m[k]` on an association list. -/
def lookupProp (m : List (String × α)) (k : String) : Option α :=
  match m with
  | [] => none
  | (n, v) :: rest => if n = k then some v else lookupProp rest k

/-! ### OpenAPI document model (the part of `kin-openapi` the converter reads) -/

structure Info where
  title : String
  description : String

structure ServerObj where
  url : String

/-- `openapi3.SecurityScheme` (the fields the converter copies). -/
structure OASecurityScheme where
  type : String
  scheme : String
  inLoc : String
  name : String

/-- `openapi3.Parameter`; the converter accesses `Schema`/`Schema.Value`
together, collapsed into one `Option`. -/
structure Parameter where
  name : String
  description : String
  required : Bool
  inLoc : String
  schema : Option Schema

structure MediaTypeObj where
  schema : Option Schema

/-- `openapi3.RequestBody`: `Content` is a content-type-keyed map. -/
structure RequestBody where
  content : List (String × MediaTypeObj)

structure ResponseObj where
  content : List (String × MediaTypeObj)

/-- One operation.  `parameters` keeps the `ParameterRef`-with-nil-`Value`
possibility.  `responses` entries keep the nil-`ResponseRef`/`Value`
possibility (checked by the source).  `security` is the optional list of
security requirements, each being a scheme-name-keyed map modelled as the
list of its scheme names.  `annotations` models the out-of-band gjson
fragment `paths.<path>.<method>.annotations` together with its
`encoding/json` parse outcome: `none` when the fragment is absent,
`some (.error e)` when it is present but malformed, `some (.ok m)` when it
parses to the map `m`. -/
structure Operation where
  summary : String
  description : String
  parameters : List (Option Parameter)
  requestBody : Option RequestBody
  responses : List (String × Option ResponseObj)
  security : Option (List (List String))
  annotations : Option (Except String (List (String × JsonVal)))

structure PathItem where
  get : Option Operation
  post : Option Operation
  put : Option Operation
  delete : Option Operation
  options : Option Operation
  head : Option Operation
  patch : Option Operation
  trace : Option Operation

structure Components where
  securitySchemes : List (String × Option OASecurityScheme)

structure Document where
  servers : List ServerObj
  info : Option Info
  components : Option Components

/-! ### MCP configuration model (`pkg/models/mcp_config.go`, as the converter uses it) -/

structure MCPSecurityScheme where
  id : String
  type : String
  scheme : String
  inLoc : String
  name : String
  defaultCredential : String

structure ToolSecurityRequirement where
  id : String
  passthrough : Bool

structure Header where
  key : String
  value : String

structure RequestTemplate where
  url : String
  method : String
  headers : List Header
  body : String
  argsToJsonBody : Bool
  argsToUrlParam : Bool
  argsToFormBody : Bool
  security : Option ToolSecurityRequirement

structure ResponseTemplate where
  body : String
  prependBody : String
  appendBody : String

structure Arg where
  name : String
  description : String
  type : String
  required : Bool
  default : Option JsonVal
  enum : List JsonVal
  items : List (String × DynVal)
  properties : List (String × DynVal)
  position : String
  enabled : Bool

structure Tool where
  name : String
  description : String
  args : List Arg
  requestTemplate : RequestTemplate
  responseTemplate : ResponseTemplate
  errorResponseTemplate : Option String
  security : Option ToolSecurityRequirement
  annotations : List (String × JsonVal)

structure ServerToolConfig where
  serverName : String
  tools : List String

structure ToolSetConfig where
  name : String
  serverTools : List ServerToolConfig

structure ServerConfig where
  name : String
  baseURL : String
  config : Option (List (String × JsonVal))
  allowTools : List String
  securitySchemes : List MCPSecurityScheme

structure MCPConfig where
  toolSet : Option ToolSetConfig
  server : ServerConfig
  tools : List Tool

structure ToolTemplate where
  requestTemplate : Option RequestTemplate
  responseTemplate : Option ResponseTemplate
  security : Option ToolSecurityRequirement

structure MCPConfigTemplate where
  server : ServerConfig
  tools : ToolTemplate

structure ConvertOptions where
  serverName : String
  serverConfig : Option (List (String × JsonVal))
  toolNamePrefix : String
  templatePath : String

/-- The document parser collaborator (`pkg/parser`) plus the two external
effects `Convert` performs, as data: the template file's read + YAML parse
outcome (`os.ReadFile` + `yaml.Unmarshal` in `applyTemplate`), and the
operation-ID lookup. -/
structure ParserHandle where
  document : Option Document
  paths : List (String × PathItem)
  operationID : String → String → Operation → String
  readTemplateFile : Except String MCPConfigTemplate

structure Converter where
  parser : ParserHandle
  options : ConvertOptions

/-- `NewConverter`: defaults for absent server name and config map. -/
def NewConverter (parser : ParserHandle) (options : ConvertOptions) : Converter :=
  let options := if options.serverName = "" then { options with serverName := "openapi-server" } else options
  let options := match options.serverConfig with
    | none => { options with serverConfig := some [] }
    | some _ => options
  { parser := parser, options := options }

/-! ### The converter (`pkg/converter/converter.go`) -/

/-- `getOperations`: the method → operation map, in the source's insertion
order (its Go-map iteration order in `Convert` is arbitrary; the model fixes
it to insertion order). -/
def getOperations (pathItem : PathItem) : List (String × Operation) :=
  (match pathItem.get with | some op => [("get", op)] | none => []) ++
  (match pathItem.post with | some op => [("post", op)] | none => []) ++
  (match pathItem.put with | some op => [("put", op)] | none => []) ++
  (match pathItem.delete with | some op => [("delete", op)] | none => []) ++
  (match pathItem.options with | some op => [("options", op)] | none => []) ++
  (match pathItem.head with | some op => [("head", op)] | none => []) ++
  (match pathItem.patch with | some op => [("patch", op)] | none => []) ++
  (match pathItem.trace with | some op => [("trace", op)] | none => [])

/-- `getDescription`. -/
def getDescription (operation : Operation) : String :=
  if operation.summary ≠ "" then
    if operation.description ≠ "" then operation.summary ++ " - " ++ operation.description
    else operation.summary
  else operation.description

/-- One parameter → one argument (loop body of `convertParameters`). -/
def paramToArg (param : Parameter) : Arg :=
  let arg : Arg :=
    { name := param.name, description := param.description, type := "",
      required := param.required, default := none, enum := [], items := [],
      properties := [], position := param.inLoc, enabled := true }
  match param.schema with
  | none => arg
  | some schema =>
    let arg := { arg with type := schema.type }
    let arg := if !schema.enum.isEmpty then { arg with enum := schema.enum } else arg
    let arg :=
      if schema.type = "array" then
        match schema.items with
        | some itemSchema => { arg with items := [("type", DynVal.str itemSchema.type)] }
        | none => arg
      else arg
    if schema.type = "object" ∧ !schema.properties.isEmpty then
      { arg with properties := paramObjectProps schema.properties }
    else arg
where
  /-- The shallow (one-level) property map built for object-typed parameters. -/
  paramObjectProps : List (String × Option Schema) → List (String × DynVal)
  | [] => []
  | (_, none) :: rest => paramObjectProps rest
  | (n, some p) :: rest =>
    let m := [("type", DynVal.str p.type)]
    let m := if p.description ≠ "" then mapSet m "description" (DynVal.str p.description) else m
    (n, DynVal.obj m) :: paramObjectProps rest

/-- `convertParameters` (it never returns a non-nil error in the source, so
the model is pure). -/
def convertParameters : List (Option Parameter) → List Arg
  | [] => []
  | none :: rest => convertParameters rest
  | some param :: rest => paramToArg param :: convertParameters rest

mutual
/-- `allOfHandle`: flatten the properties of an object-typed `allOf` member,
resolving nested single-member `allOf` compositions recursively. -/
def allOfHandle : Schema → List (String × DynVal)
  | .mk ty _ _ _ _ _ props _ _ _ =>
    if ty = "object" then allOfProps props else []

/-- Property loop of `allOfHandle` (skips unresolved refs). -/
def allOfProps : List (String × Option Schema) → List (String × DynVal)
  | [] => []
  | (_, none) :: rest => allOfProps rest
  | (n, some p) :: rest => (n, DynVal.obj (allOfEntry p)) :: allOfProps rest

/-- One property's map inside `allOfHandle`: `{type}` + optional description,
then the single-member `allOf` override (`type = "object"`,
`properties = allOfHandle member`). -/
def allOfEntry : Schema → List (String × DynVal)
  | .mk ty _ desc _ _ _ _ _ allOf _ =>
    let m := [("type", DynVal.str ty)]
    let m := if desc ≠ "" then mapSet m "description" (DynVal.str desc) else m
    match allOf with
    | [member] =>
      if ty = "" then
        mapSet (mapSet m "type" (DynVal.str "object")) "properties" (DynVal.obj (allOfHandle member))
      else m
    | _ => m
end

/-- One-level nested property map for object-typed body properties. -/
def bodySubProps : List (String × Option Schema) → List (String × DynVal)
  | [] => []
  | (_, none) :: rest => bodySubProps rest
  | (n, some sp) :: rest =>
    let m := [("type", DynVal.str sp.type)]
    let m := match sp.default with
      | some d => mapSet m "default" (DynVal.json d)
      | none => m
    let m := mapSet m "description" (DynVal.str sp.description)
    let m := if !sp.enum.isEmpty then mapSet m "enum" (DynVal.jsonArr sp.enum) else m
    (n, DynVal.obj m) :: bodySubProps rest

/-- One request-body property → one argument (loop body of
`convertRequestBody`). -/
def bodyPropToArg (requiredNames : List String) (propName : String) (p : Schema) : Arg :=
  let description := if p.title ≠ "" ∧ p.description = "" then p.title else p.description
  let arg : Arg :=
    { name := propName, description := description, type := p.type,
      required := requiredNames.contains propName, default := none, enum := [],
      items := [], properties := [], position := "body", enabled := true }
  let arg := if !p.enum.isEmpty then { arg with enum := p.enum } else arg
  let arg := match p.default with
    | some d => { arg with default := some d }
    | none => arg
  let arg :=
    if p.type = "array" then
      match p.items with
      | some itemSchema =>
        let m := [("type", DynVal.str itemSchema.type), ("description", DynVal.str itemSchema.description)]
        let m := if itemSchema.minItems > 0 then mapSet m "minItems" (DynVal.natv itemSchema.minItems) else m
        let m :=
          if itemSchema.type = "object" ∧ !itemSchema.properties.isEmpty then
            mapSet m "properties" (DynVal.schemaProps itemSchema.properties)
          else m
        { arg with items := m }
      | none => arg
    else arg
  let arg :=
    if p.type = "object" ∧ !p.properties.isEmpty then
      { arg with properties := bodySubProps p.properties }
    else arg
  match p.allOf with
  | [member] =>
    if p.type = "" then { arg with type := "object", properties := allOfHandle member }
    else arg
  | _ => arg

/-- Property loop of `convertRequestBody` (skips unresolved refs). -/
def bodyProps (requiredNames : List String) : List (String × Option Schema) → List Arg
  | [] => []
  | (_, none) :: rest => bodyProps requiredNames rest
  | (n, some p) :: rest => bodyPropToArg requiredNames n p :: bodyProps requiredNames rest

/-- Content-type loop of `convertRequestBody`: JSON / form content types with
an object schema decompose into per-property arguments. -/
def bodyContentArgs : List (String × MediaTypeObj) → List Arg
  | [] => []
  | (contentType, mediaType) :: rest =>
    (match mediaType.schema with
     | none => []
     | some schema =>
       if goContains contentType "application/json" ∨ goContains contentType "application/x-www-form-urlencoded" then
         if schema.type = "object" ∧ !schema.properties.isEmpty then
           bodyProps schema.required schema.properties
         else []
       else []) ++ bodyContentArgs rest

/-- `convertRequestBody` (never returns a non-nil error in the source). -/
def convertRequestBody (requestBody : Option RequestBody) : List Arg :=
  match requestBody with
  | none => []
  | some body => bodyContentArgs body.content

/-- The operation-security loop of `createRequestTemplate`: the first scheme
name of the first requirement holding at least one scheme (the `break` /
`securitySchemeFound` dance in the source). -/
def firstSchemeName : List (List String) → Option String
  | [] => none
  | [] :: rest => firstSchemeName rest
  | (schemeName :: _) :: _ => some schemeName

/-- `createRequestTemplate` (never returns a non-nil error in the source). -/
def createRequestTemplate (path method : String) (operation : Operation) : RequestTemplate :=
  let security : Option ToolSecurityRequirement :=
    match operation.security with
    | none => none
    | some requirements =>
      (firstSchemeName requirements).map (fun schemeName => { id := schemeName, passthrough := false })
  let headers : List Header :=
    match operation.requestBody with
    | none => []
    | some body =>
      match body.content with
      | [] => []
      | (contentType, _) :: _ => [{ key := "Content-Type", value := contentType }]
  { url := path, method := goToUpper method, headers := headers, body := "",
    argsToJsonBody := false, argsToUrlParam := false, argsToFormBody := false,
    security := security }

/-- The success-response scan of `createResponseTemplate`: first entry whose
status code starts with "2" and whose ref and value are non-nil. -/
def findSuccessResponse : List (String × Option ResponseObj) → Option ResponseObj
  | [] => none
  | (_, none) :: rest => findSuccessResponse rest
  | (code, some resp) :: rest =>
    if goHasPre code "2" then some resp else findSuccessResponse rest

/-- One field-description line (`- **path**: description (Type: t)\n`). -/
def propLine (indent propPath : String) (p : Schema) : String :=
  indent ++ "- **" ++ propPath ++ "**: " ++ p.description ++
    (if p.type ≠ "" then " (Type: " ++ p.type ++ ")" else "") ++ "\n"

/-- `processSchemaProperties`, fuelled.  The fuel is exactly
`maxDepth + 1 - depth`, so running out of fuel coincides with the source's
`depth > maxDepth` early return; `processSchemaProperties` below supplies it. -/
def processAux : Nat → Schema → String → Nat → Nat → String
  | 0, _, _, _, _ => ""
  | fuel + 1, schema, path, depth, maxDepth =>
    if depth > maxDepth then ""
    else
      let indent := String.join (List.replicate depth "  ")
      if schema.type = "array" then
        match schema.items with
        | some itemSchema =>
          if itemSchema.type = "object" ∧ !itemSchema.properties.isEmpty then
            (sortByKey (fun n => n) (itemSchema.properties.map Prod.fst)).foldl
              (fun acc propName =>
                match lookupProp itemSchema.properties propName with
                | some (some propSchema) =>
                  let propPath := path ++ "[]." ++ propName
                  acc ++ propLine indent propPath propSchema ++
                    processAux fuel propSchema propPath (depth + 1) maxDepth
                | _ => acc) ""
          else if itemSchema.type ≠ "" then
            indent ++ "- **" ++ path ++ "[]**: Items of type " ++ itemSchema.type ++ "\n"
          else ""
        | none => ""
      else if schema.type = "object" ∧ !schema.properties.isEmpty then
        (sortByKey (fun n => n) (schema.properties.map Prod.fst)).foldl
          (fun acc propName =>
            match lookupProp schema.properties propName with
            | some (some propSchema) =>
              let propPath := path ++ "." ++ propName
              acc ++ propLine indent propPath propSchema ++
                processAux fuel propSchema propPath (depth + 1) maxDepth
            | _ => acc) ""
      else ""

/-- `processSchemaProperties`: recursive field documentation, silently bounded
at `maxDepth`. -/
def processSchemaProperties (schema : Schema) (path : String) (depth maxDepth : Nat) : String :=
  processAux (maxDepth + 1 - depth) schema path depth maxDepth

/-- The fixed explanatory header the response template starts with. -/
def responseHeaderText : String :=
  "# API Response Information\n\nBelow is the response from an API call. To help you understand the data, I've provided:\n\n1. A detailed description of all fields in the response structure\n2. The complete API response\n\n## Response Structure\n\n"

/-- Content-type loop of `createResponseTemplate`: the markdown field guide
for one success response. -/
def responseContentDoc (acc : String) : List (String × MediaTypeObj) → String
  | [] => acc
  | (contentType, mediaType) :: rest =>
    match mediaType.schema with
    | none => responseContentDoc acc rest
    | some schema =>
      let acc := acc ++ "> Content-Type: " ++ contentType ++ "\n\n"
      let acc :=
        if schema.type = "array" then
          match schema.items with
          | some itemSchema =>
            acc ++ "- **items**: Array of items (Type: array)\n" ++
              processSchemaProperties itemSchema "items" 1 10
          | none => acc
        else if schema.type = "object" ∧ !schema.properties.isEmpty then
          (sortByKey (fun n => n) (schema.properties.map Prod.fst)).foldl
            (fun a propName =>
              match lookupProp schema.properties propName with
              | some (some propSchema) =>
                a ++ propLine "" propName propSchema ++
                  processSchemaProperties propSchema propName 1 10
              | _ => a) acc
        else acc
      responseContentDoc acc rest

/-- The full generated prepend-body text (built by the source and then
discarded — see `createResponseTemplate`). -/
def genPrependBody (resp : ResponseObj) : String :=
  responseContentDoc responseHeaderText resp.content ++ "\n## Original Response\n\n"

/-- `createResponseTemplate` (never returns a non-nil error in the source).
The source assigns the generated text to `PrependBody` and immediately
overwrites it with the empty string. -/
def createResponseTemplate (operation : Operation) : ResponseTemplate :=
  match findSuccessResponse operation.responses with
  | none => { body := "", prependBody := "", appendBody := "" }
  | some successResponse =>
    if successResponse.content.isEmpty then
      { body := "", prependBody := "", appendBody := "" }
    else
      let template : ResponseTemplate :=
        { body := "", prependBody := genPrependBody successResponse, appendBody := "" }
      { template with prependBody := "" }

/-- `convertOperation`.  Its only error source is a present-but-malformed
annotations fragment (the parameter/body/template builders never fail). -/
def convertOperation (c : Converter) (path method : String) (operation : Operation) : Except String Tool :=
  let toolName0 := c.parser.operationID path method operation
  let toolName := if c.options.toolNamePrefix ≠ "" then c.options.toolNamePrefix ++ toolName0 else toolName0
  match operation.annotations with
  | some (.error e) =>
    .error ("failed to parse annotations for " ++ method ++ " " ++ path ++ ": " ++ e)
  | other =>
    let annotations := match other with
      | some (.ok m) => m
      | _ => []
    let args := convertParameters operation.parameters ++ convertRequestBody operation.requestBody
    let args := sortByKey Arg.name args
    .ok { name := toolName, description := getDescription operation, args := args,
          requestTemplate := createRequestTemplate path method operation,
          responseTemplate := createResponseTemplate operation,
          errorResponseTemplate := none, security := none, annotations := annotations }

/-- The path × method iteration of `Convert`, flattened. -/
def opsOfPaths (paths : List (String × PathItem)) : List (String × String × Operation) :=
  paths.flatMap (fun entry => (getOperations entry.2).map (fun mo => (entry.1, mo.1, mo.2)))

/-- The tool-building loop of `Convert`: first failure aborts with the
operation-qualified message. -/
def buildTools (c : Converter) : List (String × String × Operation) → Except String (List Tool)
  | [] => .ok []
  | (path, method, operation) :: rest =>
    match convertOperation c path method operation with
    | .error e => .error ("failed to convert operation " ++ method ++ " " ++ path ++ ": " ++ e)
    | .ok tool => (buildTools c rest).map (fun tools => tool :: tools)

/-- The request-template block of `applyTemplate`'s tool loop: merge the
override fragment `rt` into the generated template `r`. -/
def mergeRequestTemplate (rt r : RequestTemplate) : RequestTemplate :=
  let r := if !rt.headers.isEmpty then { r with headers := r.headers ++ rt.headers } else r
  let r := if rt.body ≠ "" then { r with body := rt.body } else r
  let r := if rt.argsToJsonBody then { r with argsToJsonBody := true } else r
  let r := if rt.argsToUrlParam then { r with argsToUrlParam := true } else r
  let r := if rt.argsToFormBody then { r with argsToFormBody := true } else r
  match rt.security with
  | some s => { r with security := some s }
  | none => r

/-- The response-template block of `applyTemplate`'s tool loop. -/
def mergeResponseTemplate (rpt r : ResponseTemplate) : ResponseTemplate :=
  let r := if rpt.body ≠ "" then { r with body := rpt.body } else r
  let r := if rpt.prependBody ≠ "" then { r with prependBody := rpt.prependBody } else r
  if rpt.appendBody ≠ "" then { r with appendBody := rpt.appendBody } else r

/-- The per-tool part of `applyTemplate`. -/
def applyToolTemplate (tt : ToolTemplate) (tool : Tool) : Tool :=
  let tool :=
    match tt.requestTemplate with
    | none => tool
    | some rt => { tool with requestTemplate := mergeRequestTemplate rt tool.requestTemplate }
  let tool :=
    match tt.responseTemplate with
    | none => tool
    | some rpt => { tool with responseTemplate := mergeResponseTemplate rpt tool.responseTemplate }
  match tt.security with
  | some s => { tool with security := some s }
  | none => tool

/-- `applyTemplate`, after the template file has been read and parsed
(`Convert` below threads the read/parse outcome). -/
def applyTemplate (templateConfig : MCPConfigTemplate) (config : MCPConfig) : MCPConfig :=
  let server := config.server
  let server :=
    match templateConfig.server.config with
    | none => server
    | some entries =>
      let base := match server.config with | none => [] | some m => m
      { server with config := some (entries.foldl (fun m p => mapSet m p.1 p.2) base) }
  let server :=
    if !templateConfig.server.securitySchemes.isEmpty then
      { server with securitySchemes := templateConfig.server.securitySchemes }
    else server
  let tools :=
    if templateConfig.tools.requestTemplate.isSome || templateConfig.tools.responseTemplate.isSome
        || templateConfig.tools.security.isSome then
      config.tools.map (applyToolTemplate templateConfig.tools)
    else config.tools
  { config with server := server, tools := tools }

/-- The security-scheme collection loop of `Convert` (skips nil refs/values;
`DefaultCredential` is never populated from the document). -/
def collectSchemes : List (String × Option OASecurityScheme) → List MCPSecurityScheme
  | [] => []
  | (_, none) :: rest => collectSchemes rest
  | (n, some s) :: rest =>
    { id := n, type := s.type, scheme := s.scheme, inLoc := s.inLoc, name := s.name,
      defaultCredential := "" } :: collectSchemes rest

/-- `Convert`. -/
def Convert (c : Converter) : Except String MCPConfig :=
  match c.parser.document with
  | none => .error "no OpenAPI document loaded"
  | some doc =>
    let baseURL := match doc.servers with
      | [] => ""
      | server :: _ => server.url
    let name := "openapi-server"
    let name := if c.options.serverName ≠ "" then c.options.serverName else name
    let name := match doc.info with
      | some info => info.title ++ " - " ++ info.description
      | none => name
    let securitySchemes := match doc.components with
      | none => []
      | some components => sortByKey MCPSecurityScheme.id (collectSchemes components.securitySchemes)
    let server : ServerConfig :=
      { name := name, baseURL := baseURL, config := c.options.serverConfig,
        allowTools := [], securitySchemes := securitySchemes }
    match buildTools c (opsOfPaths c.parser.paths) with
    | .error e => .error e
    | .ok tools =>
      let config : MCPConfig := { toolSet := none, server := server, tools := tools }
      let patched : Except String MCPConfig :=
        if c.options.templatePath ≠ "" then
          match c.parser.readTemplateFile with
          | .error e => .error ("failed to apply template: " ++ e)
          | .ok templateConfig => .ok (applyTemplate templateConfig config)
        else .ok config
      patched.map (fun cfg => { cfg with tools := sortByKey Tool.name cfg.tools })

/-! ### Spec-side definitions (used only to compare the source's behaviour
against the specification's wording) -/

/-- The claim's wording for the tool security reference: the first
requirement's first scheme name. -/
def specFirstRequirementScheme (reqs : List (List String)) : Option String :=
  reqs.head?.bind List.head?

/-- The corrected wording: the first scheme name of the first requirement
that holds at least one scheme. -/
def specFirstNonEmptyScheme (reqs : List (List String)) : Option String :=
  (reqs.find? (fun r => !r.isEmpty)).bind List.head?

/-- The tool fields `applyTemplate` must never modify. -/
def toolFrame (t : Tool) :
    String × String × List Arg × String × String × List (String × JsonVal) × Option String :=
  (t.name, t.description, t.args, t.requestTemplate.url, t.requestTemplate.method,
   t.annotations, t.errorResponseTemplate)

/-! ### Concrete inputs for witnesses and counterexamples -/

def onlyGet (op : Operation) : PathItem :=
  { get := some op, post := none, put := none, delete := none,
    options := none, head := none, patch := none, trace := none }

def baseOperation : Operation :=
  { summary := "", description := "", parameters := [], requestBody := none,
    responses := [], security := none, annotations := none }

def emptyDoc : Document := { servers := [], info := none, components := none }

def stringLeaf : Schema := .mk "string" "" "" [] none [] [] none [] 0

def integerLeaf : Schema := .mk "integer" "" "" [] none [] [] none [] 0

/-- An object schema with a single property. -/
def nestedObj (n : String) (child : Schema) : Schema :=
  .mk "object" "" "" [] none [] [(n, some child)] none [] 0

/-- Fifteen levels of nested objects (the spec's depth-bound scenario). -/
def deep15Schema : Schema :=
  nestedObj "lvl01" (nestedObj "lvl02" (nestedObj "lvl03" (nestedObj "lvl04"
    (nestedObj "lvl05" (nestedObj "lvl06" (nestedObj "lvl07" (nestedObj "lvl08"
      (nestedObj "lvl09" (nestedObj "lvl10" (nestedObj "lvl11" (nestedObj "lvl12"
        (nestedObj "lvl13" (nestedObj "lvl14" (nestedObj "lvl15" stringLeaf))))))))))))))

def deep15Resp : ResponseObj :=
  { content := [("application/json", { schema := some deep15Schema })] }

/-- Operation whose first security requirement is empty and whose second names
a scheme. -/
def c8op : Operation := { baseOperation with security := some [[], ["ApiKeyAuth"]] }

/-- Override template carrying security schemes in non-sorted order. -/
def c1TemplateConfig : MCPConfigTemplate :=
  { server := { name := "", baseURL := "", config := none, allowTools := [],
                securitySchemes :=
                  [{ id := "b", type := "http", scheme := "basic", inLoc := "", name := "",
                     defaultCredential := "" },
                   { id := "a", type := "apiKey", scheme := "", inLoc := "header", name := "X-K",
                     defaultCredential := "" }] },
    tools := { requestTemplate := none, responseTemplate := none, security := none } }

def c1cexConverter : Converter :=
  { parser := { document := some emptyDoc, paths := [], operationID := fun _ _ _ => "",
                readTemplateFile := .ok c1TemplateConfig },
    options := { serverName := "s", serverConfig := none, toolNamePrefix := "",
                 templatePath := "template.yaml" } }

def w1op : Operation :=
  { baseOperation with
    parameters :=
      [some { name := "b", description := "", required := false, inLoc := "query", schema := none },
       some { name := "a", description := "", required := true, inLoc := "path", schema := none }] }

def w1doc : Document :=
  { servers := [], info := none,
    components := some { securitySchemes :=
      [("z", some { type := "http", scheme := "basic", inLoc := "", name := "" }),
       ("k", some { type := "apiKey", scheme := "", inLoc := "header", name := "X-K" })] } }

def w1Converter : Converter :=
  { parser := { document := some w1doc,
                paths := [("/w", onlyGet w1op)],
                operationID := fun _ method _ => method ++ "W",
                readTemplateFile := .error "unused" },
    options := { serverName := "svr", serverConfig := none, toolNamePrefix := "", templatePath := "" } }

def w1tool : Tool :=
  { name := "getW", description := "",
    args :=
      [{ name := "a", description := "", type := "", required := true, default := none,
         enum := [], items := [], properties := [], position := "path", enabled := true },
       { name := "b", description := "", type := "", required := false, default := none,
         enum := [], items := [], properties := [], position := "query", enabled := true }],
    requestTemplate := { url := "/w", method := "GET", headers := [], body := "",
                         argsToJsonBody := false, argsToUrlParam := false, argsToFormBody := false,
                         security := none },
    responseTemplate := { body := "", prependBody := "", appendBody := "" },
    errorResponseTemplate := none, security := none, annotations := [] }

def w1cfg : MCPConfig :=
  { toolSet := none,
    server := { name := "svr", baseURL := "", config := none, allowTools := [],
                securitySchemes :=
                  [{ id := "k", type := "apiKey", scheme := "", inLoc := "header", name := "X-K",
                     defaultCredential := "" },
                   { id := "z", type := "http", scheme := "basic", inLoc := "", name := "",
                     defaultCredential := "" }] },
    tools := [w1tool] }

/-- A run that both applies an override template supplying (unsorted)
security schemes and produces a tool: `Tools`/`Args` ordering must survive
such runs too. -/
def c1tConverter : Converter :=
  { parser := { document := some emptyDoc,
                paths := [("/w", onlyGet w1op)],
                operationID := fun _ method _ => method ++ "W",
                readTemplateFile := .ok c1TemplateConfig },
    options := { serverName := "svr", serverConfig := none, toolNamePrefix := "",
                 templatePath := "template.yaml" } }

def c1tCfg : MCPConfig :=
  { toolSet := none,
    server := { name := "svr", baseURL := "", config := none, allowTools := [],
                securitySchemes :=
                  [{ id := "b", type := "http", scheme := "basic", inLoc := "", name := "",
                     defaultCredential := "" },
                   { id := "a", type := "apiKey", scheme := "", inLoc := "header", name := "X-K",
                     defaultCredential := "" }] },
    tools := [w1tool] }

def titledConverter : Converter :=
  { parser := { document := some { servers := [], info := some { title := "Swagger Petstore", description := "A sample API" }, components := none },
                paths := [], operationID := fun _ _ _ => "", readTemplateFile := .error "unused" },
    options := { serverName := "ignored", serverConfig := none, toolNamePrefix := "", templatePath := "" } }

def titledCfg : MCPConfig :=
  { toolSet := none,
    server := { name := "Swagger Petstore - A sample API", baseURL := "", config := none,
                allowTools := [], securitySchemes := [] },
    tools := [] }

def unnamedConverter : Converter :=
  { parser := { document := some emptyDoc, paths := [], operationID := fun _ _ _ => "",
                readTemplateFile := .error "unused" },
    options := { serverName := "", serverConfig := none, toolNamePrefix := "", templatePath := "" } }

def unnamedCfg : MCPConfig :=
  { toolSet := none,
    server := { name := "openapi-server", baseURL := "", config := none, allowTools := [],
                securitySchemes := [] },
    tools := [] }

/-- Operation with a present-but-malformed annotations fragment. -/
def c9op : Operation := { baseOperation with annotations := some (.error "invalid character") }

def c9Converter : Converter :=
  { parser := { document := some emptyDoc, paths := [("/pets", onlyGet c9op)],
                operationID := fun _ _ _ => "x", readTemplateFile := .error "unused" },
    options := { serverName := "s", serverConfig := none, toolNamePrefix := "", templatePath := "" } }

def c4param : Parameter :=
  { name := "petId", description := "", required := true, inLoc := "path", schema := none }

def c4body : RequestBody :=
  { content := [("application/json",
      { schema := some (.mk "object" "" "" [] none [] [("name", some stringLeaf)] none [] 0) })] }

def c7sx : Schema := stringLeaf

def c7sy : Schema := integerLeaf

def c7member : Schema :=
  .mk "object" "" "" [] none [] [("x", some c7sx), ("y", some c7sy)] none [] 0

def c7prop : Schema := .mk "" "" "" [] none [] [] none [c7member] 0

/-- An object request-body schema with one property (test fixture for the
`allOf` flattening scenario). -/
def c7TopSchema (reqd : List String) (propName : String) (ps : Schema) : Schema :=
  .mk "object" "" "" [] none reqd [(propName, some ps)] none [] 0

/-- The error message `Convert` produces when an operation's annotations
fragment fails to parse (outer wrap from `Convert`, inner from
`convertOperation`). -/
def annotationsFailureMsg (method path e : String) : String :=
  "failed to convert operation " ++ method ++ " " ++ path ++ ": " ++
    ("failed to parse annotations for " ++ method ++ " " ++ path ++ ": " ++ e)

/-- The configuration `Convert` builds before the template step and the final
sort (used to state the decomposition lemma). -/
def convertBase (c : Converter) (doc : Document) (tools : List Tool) : MCPConfig :=
  { toolSet := none,
    server := { name :=
                  match doc.info with
                  | some info => info.title ++ " - " ++ info.description
                  | none => if c.options.serverName ≠ "" then c.options.serverName else "openapi-server",
                baseURL := match doc.servers with
                  | [] => ""
                  | server :: _ => server.url,
                config := c.options.serverConfig, allowTools := [],
                securitySchemes :=
                  match doc.components with
                  | none => []
                  | some components => sortByKey MCPSecurityScheme.id (collectSchemes components.securitySchemes) },
    tools := tools }

/-! ### Order lemmas -/

theorem ltChars_asymm : ∀ a b : List Char, ltChars a b = true → ltChars b a = false
  | [], [] => by simp [ltChars]
  | [], _ :: _ => by simp [ltChars]
  | _ :: _, [] => by simp [ltChars]
  | a :: as, b :: bs => by
    simp only [ltChars]
    by_cases hab : a < b
    · simp [hab, lt_asymm hab, not_lt_of_lt hab]
    · by_cases hba : b < a
      · simp [hab, hba]
      · simp [hab, hba]
        exact ltChars_asymm as bs

theorem strLeB_of_not (a b : String) (h : strLeB a b = false) : strLeB b a = true := by
  simp only [strLeB, strLtB, Bool.not_eq_false'] at h
  simp only [strLeB, strLtB, Bool.not_eq_true']
  exact ltChars_asymm _ _ h

theorem mem_insertSorted (key : α → String) (a x : α) :
    ∀ l : List α, x ∈ insertSorted key a l → x = a ∨ x ∈ l
  | [] => by simp [insertSorted]
  | b :: l => by
    simp only [insertSorted]
    split
    · intro h
      rcases List.mem_cons.mp h with h | h
      · exact Or.inl h
      · exact Or.inr h
    · intro h
      rcases List.mem_cons.mp h with h | h
      · exact Or.inr (by simp [h])
      · rcases mem_insertSorted key a x l h with h | h
        · exact Or.inl h
        · exact Or.inr (List.mem_cons_of_mem _ h)

theorem mem_sortByKey (key : α → String) (x : α) :
    ∀ l : List α, x ∈ sortByKey key l → x ∈ l
  | [] => by simp [sortByKey]
  | a :: l => by
    simp only [sortByKey]
    intro h
    rcases mem_insertSorted key a x _ h with h | h
    · simp [h]
    · exact List.mem_cons_of_mem _ (mem_sortByKey key x l h)

theorem sorted_insertSorted (key : α → String) (a : α) :
    ∀ l : List α, isSortedByKey key l = true → isSortedByKey key (insertSorted key a l) = true
  | [], _ => rfl
  | [b], _ => by
    simp only [insertSorted]
    by_cases hc : strLeB (key a) (key b) = true
    · simp [hc, isSortedByKey]
    · have hc' : strLeB (key a) (key b) = false := by
        revert hc; cases strLeB (key a) (key b) <;> simp
      have hba := strLeB_of_not _ _ hc'
      simp [hc', insertSorted, isSortedByKey, hba]
  | b :: c :: t, h => by
    have hbc : strLeB (key b) (key c) = true := by
      have h' := h
      simp only [isSortedByKey, Bool.and_eq_true] at h'
      exact h'.1
    have hct : isSortedByKey key (c :: t) = true := by
      have h' := h
      simp only [isSortedByKey, Bool.and_eq_true] at h'
      exact h'.2
    simp only [insertSorted]
    by_cases hab : strLeB (key a) (key b) = true
    · simp only [if_pos hab]
      show (strLeB (key a) (key b) && isSortedByKey key (b :: c :: t)) = true
      simp [hab, h]
    · have hab' : strLeB (key a) (key b) = false := by
        revert hab; cases strLeB (key a) (key b) <;> simp
      have hba := strLeB_of_not _ _ hab'
      simp only [hab', Bool.false_eq_true, if_false]
      have ih : isSortedByKey key (insertSorted key a (c :: t)) = true :=
        sorted_insertSorted key a (c :: t) hct
      by_cases hac : strLeB (key a) (key c) = true
      · simp only [insertSorted, if_pos hac] at ih ⊢
        show (strLeB (key b) (key a) && isSortedByKey key (a :: c :: t)) = true
        simp [hba, ih]
      · have hac' : strLeB (key a) (key c) = false := by
          revert hac; cases strLeB (key a) (key c) <;> simp
        simp only [insertSorted, hac', Bool.false_eq_true, if_false] at ih ⊢
        show (strLeB (key b) (key c) && isSortedByKey key (c :: insertSorted key a t)) = true
        simp [hbc, ih]

theorem isSortedByKey_sortByKey (key : α → String) :
    ∀ l : List α, isSortedByKey key (sortByKey key l) = true
  | [] => rfl
  | a :: l => sorted_insertSorted key a _ (isSortedByKey_sortByKey key l)

/-! ### Template-merge lemmas -/

theorem mergeRequestTemplate_eq (rt r : RequestTemplate) :
    mergeRequestTemplate rt r =
      { url := r.url, method := r.method, headers := r.headers ++ rt.headers,
        body := if rt.body = "" then r.body else rt.body,
        argsToJsonBody := r.argsToJsonBody || rt.argsToJsonBody,
        argsToUrlParam := r.argsToUrlParam || rt.argsToUrlParam,
        argsToFormBody := r.argsToFormBody || rt.argsToFormBody,
        security := match rt.security with
          | some s => some s
          | none => r.security } := by
  rcases rt with ⟨u, m, hs, b, j, up, f, sec⟩
  rcases r with ⟨u2, m2, hs2, b2, j2, up2, f2, sec2⟩
  unfold mergeRequestTemplate
  cases hs <;> cases j <;> cases up <;> cases f <;> cases sec <;>
    by_cases hb : b = "" <;> simp_all

theorem mergeResponseTemplate_eq (rpt r : ResponseTemplate) :
    mergeResponseTemplate rpt r =
      { body := if rpt.body = "" then r.body else rpt.body,
        prependBody := if rpt.prependBody = "" then r.prependBody else rpt.prependBody,
        appendBody := if rpt.appendBody = "" then r.appendBody else rpt.appendBody } := by
  rcases rpt with ⟨b, pb, ab⟩
  rcases r with ⟨b2, pb2, ab2⟩
  unfold mergeResponseTemplate
  by_cases hb : b = "" <;> by_cases hp : pb = "" <;> by_cases ha : ab = "" <;> simp_all

theorem applyToolTemplate_requestTemplate (tt : ToolTemplate) (tool : Tool) :
    (applyToolTemplate tt tool).requestTemplate =
      match tt.requestTemplate with
      | none => tool.requestTemplate
      | some rt => mergeRequestTemplate rt tool.requestTemplate := by
  unfold applyToolTemplate
  cases tt.requestTemplate <;> cases tt.responseTemplate <;> cases tt.security <;> rfl

theorem applyToolTemplate_args (tt : ToolTemplate) (tool : Tool) :
    (applyToolTemplate tt tool).args = tool.args := by
  unfold applyToolTemplate
  cases tt.requestTemplate <;> cases tt.responseTemplate <;> cases tt.security <;> rfl

theorem applyToolTemplate_name (tt : ToolTemplate) (tool : Tool) :
    (applyToolTemplate tt tool).name = tool.name := by
  unfold applyToolTemplate
  cases tt.requestTemplate <;> cases tt.responseTemplate <;> cases tt.security <;> rfl

theorem applyToolTemplate_description (tt : ToolTemplate) (tool : Tool) :
    (applyToolTemplate tt tool).description = tool.description := by
  unfold applyToolTemplate
  cases tt.requestTemplate <;> cases tt.responseTemplate <;> cases tt.security <;> rfl

theorem applyToolTemplate_annotations (tt : ToolTemplate) (tool : Tool) :
    (applyToolTemplate tt tool).annotations = tool.annotations := by
  unfold applyToolTemplate
  cases tt.requestTemplate <;> cases tt.responseTemplate <;> cases tt.security <;> rfl

theorem applyToolTemplate_errorResponseTemplate (tt : ToolTemplate) (tool : Tool) :
    (applyToolTemplate tt tool).errorResponseTemplate = tool.errorResponseTemplate := by
  unfold applyToolTemplate
  cases tt.requestTemplate <;> cases tt.responseTemplate <;> cases tt.security <;> rfl

theorem applyToolTemplate_url (tt : ToolTemplate) (tool : Tool) :
    (applyToolTemplate tt tool).requestTemplate.url = tool.requestTemplate.url := by
  rw [applyToolTemplate_requestTemplate]
  cases h : tt.requestTemplate with
  | none => rfl
  | some rt => simp [mergeRequestTemplate_eq]

theorem applyToolTemplate_method (tt : ToolTemplate) (tool : Tool) :
    (applyToolTemplate tt tool).requestTemplate.method = tool.requestTemplate.method := by
  rw [applyToolTemplate_requestTemplate]
  cases h : tt.requestTemplate with
  | none => rfl
  | some rt => simp [mergeRequestTemplate_eq]

theorem toolFrame_applyToolTemplate (tt : ToolTemplate) (tool : Tool) :
    toolFrame (applyToolTemplate tt tool) = toolFrame tool := by
  unfold toolFrame
  rw [applyToolTemplate_name, applyToolTemplate_description, applyToolTemplate_args,
      applyToolTemplate_url, applyToolTemplate_method, applyToolTemplate_annotations,
      applyToolTemplate_errorResponseTemplate]

theorem applyTemplate_tools (tc : MCPConfigTemplate) (cfg : MCPConfig) :
    (applyTemplate tc cfg).tools =
      if tc.tools.requestTemplate.isSome || tc.tools.responseTemplate.isSome
          || tc.tools.security.isSome then
        cfg.tools.map (applyToolTemplate tc.tools)
      else cfg.tools := rfl

theorem applyTemplate_server_name (tc : MCPConfigTemplate) (cfg : MCPConfig) :
    (applyTemplate tc cfg).server.name = cfg.server.name := by
  unfold applyTemplate
  cases tc.server.config <;>
    by_cases h : tc.server.securitySchemes.isEmpty <;> simp [h]

theorem applyTemplate_server_baseURL (tc : MCPConfigTemplate) (cfg : MCPConfig) :
    (applyTemplate tc cfg).server.baseURL = cfg.server.baseURL := by
  unfold applyTemplate
  cases tc.server.config <;>
    by_cases h : tc.server.securitySchemes.isEmpty <;> simp [h]

theorem applyTemplate_server_allowTools (tc : MCPConfigTemplate) (cfg : MCPConfig) :
    (applyTemplate tc cfg).server.allowTools = cfg.server.allowTools := by
  unfold applyTemplate
  cases tc.server.config <;>
    by_cases h : tc.server.securitySchemes.isEmpty <;> simp [h]

theorem applyTemplate_schemes_of_empty (tc : MCPConfigTemplate) (cfg : MCPConfig)
    (h : tc.server.securitySchemes = []) :
    (applyTemplate tc cfg).server.securitySchemes = cfg.server.securitySchemes := by
  unfold applyTemplate
  cases tc.server.config <;> simp [h]

theorem applyTemplate_tools_mem (tc : MCPConfigTemplate) (cfg : MCPConfig) (t : Tool)
    (ht : t ∈ (applyTemplate tc cfg).tools) :
    ∃ t0, t0 ∈ cfg.tools ∧ t.args = t0.args := by
  rw [applyTemplate_tools] at ht
  split at ht
  · rcases List.mem_map.mp ht with ⟨t0, ht0, rfl⟩
    exact ⟨t0, ht0, applyToolTemplate_args _ _⟩
  · exact ⟨t, ht, rfl⟩

/-! ### Security reference lemma -/

theorem firstSchemeName_eq_spec : ∀ reqs : List (List String),
    firstSchemeName reqs = specFirstNonEmptyScheme reqs
  | [] => rfl
  | [] :: rest => by
    simpa [firstSchemeName, specFirstNonEmptyScheme, List.find?] using
      firstSchemeName_eq_spec rest
  | (s :: r) :: rest => by
    simp [firstSchemeName, specFirstNonEmptyScheme, List.find?]

/-! ### Convert decomposition -/

theorem convertOperation_args_sorted (c : Converter) (path method : String) (op : Operation)
    (tool : Tool) (h : convertOperation c path method op = .ok tool) :
    isSortedByKey Arg.name tool.args = true := by
  unfold convertOperation at h
  cases hann : op.annotations with
  | none =>
    rw [hann] at h
    simp only [Except.ok.injEq] at h
    rw [← h]
    exact isSortedByKey_sortByKey _ _
  | some r =>
    cases r with
    | error e => rw [hann] at h; simp at h
    | ok m =>
      rw [hann] at h
      simp only [Except.ok.injEq] at h
      rw [← h]
      exact isSortedByKey_sortByKey _ _

theorem buildTools_args_sorted (c : Converter) :
    ∀ (ops : List (String × String × Operation)) (tools : List Tool),
      buildTools c ops = .ok tools → ∀ t ∈ tools, isSortedByKey Arg.name t.args = true
  | [], tools => by
    intro h t ht
    simp only [buildTools, Except.ok.injEq] at h
    rw [← h] at ht
    simp at ht
  | (path, method, op) :: rest, tools => by
    intro h t ht
    simp only [buildTools] at h
    cases hop : convertOperation c path method op with
    | error e => rw [hop] at h; simp at h
    | ok tool =>
      rw [hop] at h
      cases hrest : buildTools c rest with
      | error e => rw [hrest] at h; simp [Except.map] at h
      | ok tools2 =>
        rw [hrest] at h
        simp only [Except.map, Except.ok.injEq] at h
        rw [← h] at ht
        rcases List.mem_cons.mp ht with rfl | ht2
        · exact convertOperation_args_sorted c path method op t hop
        · exact buildTools_args_sorted c rest tools2 hrest t ht2

theorem Convert_eq_of_doc (c : Converter) (doc : Document)
    (hdoc : c.parser.document = some doc) :
    Convert c =
      (match buildTools c (opsOfPaths c.parser.paths) with
       | Except.error e => Except.error e
       | Except.ok tools0 =>
         Except.map (fun cfg => { cfg with tools := sortByKey Tool.name cfg.tools })
           (if c.options.templatePath ≠ "" then
              match c.parser.readTemplateFile with
              | Except.error e => Except.error ("failed to apply template: " ++ e)
              | Except.ok templateConfig =>
                Except.ok (applyTemplate templateConfig (convertBase c doc tools0))
            else Except.ok (convertBase c doc tools0))) := by
  unfold Convert
  rw [hdoc]
  exact rfl

theorem convert_ok_decomp (c : Converter) (cfg : MCPConfig) (h : Convert c = .ok cfg) :
    ∃ doc tools0,
      c.parser.document = some doc ∧
      buildTools c (opsOfPaths c.parser.paths) = .ok tools0 ∧
      ((c.options.templatePath = "" ∧
          cfg = { convertBase c doc tools0 with tools := sortByKey Tool.name tools0 }) ∨
       (c.options.templatePath ≠ "" ∧ ∃ tc,
          c.parser.readTemplateFile = .ok tc ∧
          cfg = { applyTemplate tc (convertBase c doc tools0) with
                    tools := sortByKey Tool.name (applyTemplate tc (convertBase c doc tools0)).tools })) := by
  cases hdoc : c.parser.document with
  | none => unfold Convert at h; rw [hdoc] at h; simp at h
  | some doc =>
    rw [Convert_eq_of_doc c doc hdoc] at h
    cases hbt : buildTools c (opsOfPaths c.parser.paths) with
    | error e => rw [hbt] at h; simp at h
    | ok tools0 =>
      rw [hbt] at h
      refine ⟨doc, tools0, rfl, rfl, ?_⟩
      by_cases htp : c.options.templatePath = ""
      · left
        refine ⟨htp, ?_⟩
        simp only [htp, ne_eq, not_true_eq_false, if_false, Except.map, Except.ok.injEq] at h
        exact h.symm
      · right
        refine ⟨htp, ?_⟩
        cases hrt : c.parser.readTemplateFile with
        | error e =>
          rw [hrt] at h
          simp only [ne_eq, htp, not_false_eq_true, if_true, Except.map] at h
          simp at h
        | ok tc =>
          rw [hrt] at h
          refine ⟨tc, rfl, ?_⟩
          simp only [ne_eq, htp, not_false_eq_true, if_true, Except.map, Except.ok.injEq] at h
          exact h.symm

/-! ### Claim theorems -/

/-- C1 (amended): every configuration `Convert` returns has its `Tools` sorted
ascending by tool name and every tool's `Args` sorted ascending by argument
name — in all runs, including runs whose override template supplies security
schemes; `Server.SecuritySchemes` is sorted ascending by identifier provided
the run used no override template, or the override template supplied no
security schemes.  (When an override template replaces the schemes, they are
emitted verbatim in template order — see the counterexample.) -/
theorem convert_output_ordering (c : Converter) (cfg : MCPConfig) (t : Tool)
    (h : Convert c = .ok cfg) (ht : t ∈ cfg.tools) :
    isSortedByKey Tool.name cfg.tools = true ∧
    isSortedByKey Arg.name t.args = true ∧
    ((c.options.templatePath = "" ∨
        ∀ tc, c.parser.readTemplateFile = Except.ok tc → tc.server.securitySchemes = []) →
      isSortedByKey MCPSecurityScheme.id cfg.server.securitySchemes = true) := by
  obtain ⟨doc, tools0, hdoc, hbt, hcase⟩ := convert_ok_decomp c cfg h
  have hbase : isSortedByKey MCPSecurityScheme.id
      (convertBase c doc tools0).server.securitySchemes = true := by
    show isSortedByKey MCPSecurityScheme.id
      (match doc.components with
       | none => []
       | some components =>
         sortByKey MCPSecurityScheme.id (collectSchemes components.securitySchemes)) = true
    cases doc.components with
    | none => rfl
    | some comps => exact isSortedByKey_sortByKey _ _
  rcases hcase with ⟨htp, rfl⟩ | ⟨htp, tc, hrt, rfl⟩
  · refine ⟨isSortedByKey_sortByKey _ _, ?_, fun _ => hbase⟩
    have ht0 : t ∈ tools0 := mem_sortByKey _ _ _ ht
    exact buildTools_args_sorted c _ tools0 hbt t ht0
  · refine ⟨isSortedByKey_sortByKey _ _, ?_, ?_⟩
    · have ht1 : t ∈ (applyTemplate tc (convertBase c doc tools0)).tools :=
        mem_sortByKey _ _ _ ht
      obtain ⟨t0, ht0, hargs⟩ := applyTemplate_tools_mem tc _ t ht1
      rw [hargs]
      exact buildTools_args_sorted c _ tools0 hbt t0 ht0
    · intro hsch
      have hempty : tc.server.securitySchemes = [] := by
        rcases hsch with hsch | hsch
        · exact absurd hsch htp
        · exact hsch tc hrt
      show isSortedByKey MCPSecurityScheme.id
        (applyTemplate tc (convertBase c doc tools0)).server.securitySchemes = true
      rw [applyTemplate_schemes_of_empty tc _ hempty]
      exact hbase

/-- C1 counterexample: a run whose override template supplies security schemes
in the order `b`, `a` succeeds and returns them unsorted — the claim's
security-scheme ordering invariant fails for runs where an override template
replaced the schemes (the sort happens before the template is applied). -/
theorem template_breaks_scheme_ordering :
    (Convert c1cexConverter).map
        (fun cfg => isSortedByKey MCPSecurityScheme.id cfg.server.securitySchemes) =
      Except.ok false := rfl

/-- C1 witness: a template-free run with two parameters and two document
security schemes (all three orderings), plus a run whose override template
supplies unsorted security schemes (`Tools`/`Args` ordering still holds). -/
theorem convert_output_ordering_witness :
    (isSortedByKey Tool.name w1cfg.tools = true ∧
     isSortedByKey Arg.name w1tool.args = true ∧
     isSortedByKey MCPSecurityScheme.id w1cfg.server.securitySchemes = true) ∧
    (isSortedByKey Tool.name c1tCfg.tools = true ∧
     isSortedByKey Arg.name w1tool.args = true) :=
  ⟨⟨(convert_output_ordering w1Converter w1cfg w1tool rfl (by simp [w1cfg])).1,
    (convert_output_ordering w1Converter w1cfg w1tool rfl (by simp [w1cfg])).2.1,
    (convert_output_ordering w1Converter w1cfg w1tool rfl (by simp [w1cfg])).2.2 (Or.inl rfl)⟩,
   ⟨(convert_output_ordering c1tConverter c1tCfg w1tool rfl (by simp [c1tCfg])).1,
    (convert_output_ordering c1tConverter c1tCfg w1tool rfl (by simp [c1tCfg])).2.1⟩⟩

/-- C2: `Convert` names the server `"openapi-server"` when the caller supplied
no name and the document has no info block, and synthesizes
`"<title> - <description>"` whenever the document carries an info block,
overriding any caller-supplied name. -/
theorem convert_server_name (c : Converter) (cfg : MCPConfig) (doc : Document) (i : Info)
    (h : Convert c = .ok cfg) (hdoc : c.parser.document = some doc) :
    (doc.info = none → c.options.serverName = "" → cfg.server.name = "openapi-server") ∧
    (doc.info = some i → cfg.server.name = i.title ++ " - " ++ i.description) := by
  obtain ⟨doc2, tools0, hdoc2, hbt, hcase⟩ := convert_ok_decomp c cfg h
  have hdd : doc2 = doc := Option.some.inj (hdoc2.symm.trans hdoc)
  subst hdd
  have hname : cfg.server.name = (convertBase c doc2 tools0).server.name := by
    rcases hcase with ⟨htp, rfl⟩ | ⟨htp, tc, hrt, rfl⟩
    · rfl
    · exact applyTemplate_server_name tc _
  constructor
  · intro hinfo hsn
    rw [hname]
    show (match doc2.info with
      | some info => info.title ++ " - " ++ info.description
      | none => if c.options.serverName ≠ "" then c.options.serverName else "openapi-server") =
      "openapi-server"
    rw [hinfo, hsn]
    simp
  · intro hinfo
    rw [hname]
    show (match doc2.info with
      | some info => info.title ++ " - " ++ info.description
      | none => if c.options.serverName ≠ "" then c.options.serverName else "openapi-server") =
      i.title ++ " - " ++ i.description
    rw [hinfo]

/-- C2 witness: a titled document overrides the caller-supplied name, and a
run with no name and no info block gets the default constant. -/
theorem convert_server_name_witness :
    titledCfg.server.name = "Swagger Petstore - A sample API" ∧
    unnamedCfg.server.name = "openapi-server" :=
  ⟨(convert_server_name titledConverter titledCfg
      { servers := [], info := some { title := "Swagger Petstore", description := "A sample API" },
        components := none }
      { title := "Swagger Petstore", description := "A sample API" } rfl rfl).2 rfl,
   (convert_server_name unnamedConverter unnamedCfg emptyDoc { title := "", description := "" }
      rfl rfl).1 rfl rfl⟩

/-- C3: for every operation the generated response template is entirely empty:
with no 2xx response, or a 2xx response without content, the empty template is
returned directly; otherwise the generated field-description text is
discarded (`PrependBody` is overwritten with `""`), so all three string
fields are empty in every generated tool. -/
theorem response_template_fields_empty (operation : Operation) :
    createResponseTemplate operation = { body := "", prependBody := "", appendBody := "" } := by
  unfold createResponseTemplate
  cases findSuccessResponse operation.responses with
  | none => rfl
  | some resp =>
    cases resp with
    | mk content => cases content <;> rfl

theorem convertParameters_eq : ∀ params : List (Option Parameter),
    convertParameters params = (params.filterMap (fun x => x)).map paramToArg
  | [] => rfl
  | none :: rest => by
    simp [convertParameters, List.filterMap_cons, convertParameters_eq rest]
  | some p :: rest => by
    simp [convertParameters, List.filterMap_cons, convertParameters_eq rest]

theorem paramToArg_position (p : Parameter) : (paramToArg p).position = p.inLoc := by
  unfold paramToArg
  cases p.schema with
  | none => rfl
  | some s =>
    repeat' split
    all_goals rfl

theorem bodyPropToArg_position (requiredNames : List String) (propName : String) (p : Schema) :
    (bodyPropToArg requiredNames propName p).position = "body" := by
  unfold bodyPropToArg
  cases hd : p.default <;> cases hi : p.items <;>
    rcases hall : p.allOf with _ | ⟨m, _ | ⟨m2, tl⟩⟩ <;>
      simp only [apply_ite Arg.position, ite_self]

theorem bodyProps_position (requiredNames : List String) :
    ∀ (props : List (String × Option Schema)) (arg : Arg),
      arg ∈ bodyProps requiredNames props → arg.position = "body"
  | [], arg => by simp [bodyProps]
  | (n, none) :: rest, arg => by
    simp only [bodyProps]
    exact bodyProps_position requiredNames rest arg
  | (n, some p) :: rest, arg => by
    simp only [bodyProps, List.mem_cons]
    rintro (rfl | h)
    · exact bodyPropToArg_position requiredNames n p
    · exact bodyProps_position requiredNames rest arg h

theorem bodyContentArgs_position :
    ∀ (content : List (String × MediaTypeObj)) (arg : Arg),
      arg ∈ bodyContentArgs content → arg.position = "body"
  | [], arg => by simp [bodyContentArgs]
  | (contentType, ⟨none⟩) :: rest, arg => by
    intro h
    simp only [bodyContentArgs, List.nil_append] at h
    exact bodyContentArgs_position rest arg h
  | (contentType, ⟨some schema⟩) :: rest, arg => by
    intro h
    simp only [bodyContentArgs, List.mem_append] at h
    rcases h with h | h
    · split at h
      · split at h
        · exact bodyProps_position _ _ arg h
        · simp at h
      · simp at h
    · exact bodyContentArgs_position rest arg h

/-- C4: every argument built from a declared parameter is `paramToArg` of that
parameter and carries the parameter's declared location verbatim as its
`Position`; every argument built from a request-body property has
`Position = "body"`. -/
theorem argument_position_tagging (params : List (Option Parameter)) (p : Parameter)
    (requestBody : Option RequestBody) (arg : Arg)
    (hmem : arg ∈ convertRequestBody requestBody) :
    convertParameters params = (params.filterMap (fun x => x)).map paramToArg ∧
    (paramToArg p).position = p.inLoc ∧
    arg.position = "body" := by
  refine ⟨convertParameters_eq params, paramToArg_position p, ?_⟩
  cases requestBody with
  | none => simp [convertRequestBody] at hmem
  | some body => exact bodyContentArgs_position body.content arg hmem

/-- C4 witness: a `path` parameter and a JSON body property, checked at
concrete inputs. -/
theorem argument_position_tagging_witness :
    (paramToArg c4param).position = "path" ∧
    (bodyPropToArg [] "name" stringLeaf).position = "body" := by
  have h := argument_position_tagging [some c4param] c4param (some c4body)
    (bodyPropToArg [] "name" stringLeaf)
    (by rw [show convertRequestBody (some c4body) = [bodyPropToArg [] "name" stringLeaf] from rfl]
        exact List.mem_singleton.mpr rfl)
  exact ⟨h.2.1, h.2.2⟩

/-- C5: with an override template present, headers are appended after the
generated ones (duplicates preserved), a non-empty override body replaces the
generated body (an empty one leaves it), each body-injection flag is a
one-way OR, the merge applies to every tool of the configuration — and
without an override template, generation itself never sets any of the three
flags (`createRequestTemplate` leaves them `false` for every operation). -/
theorem template_merge_request_semantics (srv : ServerConfig) (rt : RequestTemplate)
    (rpt : Option ResponseTemplate) (sec : Option ToolSecurityRequirement)
    (t : Tool) (cfg : MCPConfig) (path method : String) (op : Operation) :
    (applyTemplate { server := srv, tools := ⟨some rt, rpt, sec⟩ } cfg).tools
        = cfg.tools.map (applyToolTemplate ⟨some rt, rpt, sec⟩) ∧
    (applyToolTemplate ⟨some rt, rpt, sec⟩ t).requestTemplate.headers
        = t.requestTemplate.headers ++ rt.headers ∧
    (applyToolTemplate ⟨some rt, rpt, sec⟩ t).requestTemplate.body
        = (if rt.body = "" then t.requestTemplate.body else rt.body) ∧
    (applyToolTemplate ⟨some rt, rpt, sec⟩ t).requestTemplate.argsToJsonBody
        = (t.requestTemplate.argsToJsonBody || rt.argsToJsonBody) ∧
    (applyToolTemplate ⟨some rt, rpt, sec⟩ t).requestTemplate.argsToUrlParam
        = (t.requestTemplate.argsToUrlParam || rt.argsToUrlParam) ∧
    (applyToolTemplate ⟨some rt, rpt, sec⟩ t).requestTemplate.argsToFormBody
        = (t.requestTemplate.argsToFormBody || rt.argsToFormBody) ∧
    (createRequestTemplate path method op).argsToJsonBody = false ∧
    (createRequestTemplate path method op).argsToUrlParam = false ∧
    (createRequestTemplate path method op).argsToFormBody = false := by
  refine ⟨?_, ?_, ?_, ?_, ?_, ?_, rfl, rfl, rfl⟩
  · rw [applyTemplate_tools]
    simp
  all_goals
    rw [applyToolTemplate_requestTemplate]
    simp [mergeRequestTemplate_eq]

set_option maxRecDepth 100000 in
/-- C6: the recursive schema traversal emits nothing once the current depth
exceeds the maximum depth (fixed at 10 by the response-template builder), even
when deeper structure exists: in the generated (pre-discard) text for a schema
of 15 nested objects, the field reached at recursion depth 10 is documented
and the one below it is not. -/
theorem schema_depth_bound (schema : Schema) (path : String) (depth maxDepth : Nat)
    (h : maxDepth < depth) :
    processSchemaProperties schema path depth maxDepth = "" ∧
    goContains (genPrependBody deep15Resp) "lvl11" = true ∧
    goContains (genPrependBody deep15Resp) "lvl12" = false := by
  refine ⟨?_, by rfl, by rfl⟩
  unfold processSchemaProperties
  have h0 : maxDepth + 1 - depth = 0 := by omega
  rw [h0]
  rfl

/-- C6 witness: the guard applied at depth 11 with maximum depth 10, plus the
concrete 15-level check. -/
theorem schema_depth_bound_witness :
    processSchemaProperties stringLeaf "p" 11 10 = "" ∧
    goContains (genPrependBody deep15Resp) "lvl11" = true :=
  ⟨(schema_depth_bound stringLeaf "p" 11 10 (by decide)).1,
   (schema_depth_bound stringLeaf "p" 11 10 (by decide)).2.1⟩

/-- C7: a request-body property with empty type and exactly one `allOf` member
of object type with properties x (string) and y (integer) yields an argument
of type "object" whose `Properties` map is exactly x ↦ {type: string},
y ↦ {type: integer}; and a nested single-member composition inside a member
resolves recursively to type "object" with `properties = allOfHandle member`. -/
theorem allof_single_member_flattening
    (reqd : List String) (propName : String) (ps member sx sy q inner : Schema)
    (hty : ps.type = "") (hallof : ps.allOf = [member])
    (hmty : member.type = "object")
    (hmprops : member.properties = [("x", some sx), ("y", some sy)])
    (hsxty : sx.type = "string") (hsxd : sx.description = "")
    (hsyty : sy.type = "integer") (hsyd : sy.description = "")
    (hqty : q.type = "") (hqd : q.description = "") (hqall : q.allOf = [inner]) :
    convertRequestBody (some { content :=
        [("application/json", { schema := some (c7TopSchema reqd propName ps) })] })
      = [bodyPropToArg reqd propName ps] ∧
    (bodyPropToArg reqd propName ps).type = "object" ∧
    (bodyPropToArg reqd propName ps).properties =
      [("x", DynVal.obj [("type", DynVal.str "string")]),
       ("y", DynVal.obj [("type", DynVal.str "integer")])] ∧
    allOfEntry q = [("type", DynVal.str "object"),
                    ("properties", DynVal.obj (allOfHandle inner))] := by
  have hx : allOfEntry sx = [("type", DynVal.str "string")] := by
    cases sx with
    | mk a b cdesc d e f g hh i j =>
      simp only [Schema.type] at hsxty
      simp only [Schema.description] at hsxd
      subst hsxty; subst hsxd
      rcases i with _ | ⟨q1, _ | ⟨q2, tl⟩⟩ <;> rfl
  have hy : allOfEntry sy = [("type", DynVal.str "integer")] := by
    cases sy with
    | mk a b cdesc d e f g hh i j =>
      simp only [Schema.type] at hsyty
      simp only [Schema.description] at hsyd
      subst hsyty; subst hsyd
      rcases i with _ | ⟨q1, _ | ⟨q2, tl⟩⟩ <;> rfl
  have hmem : allOfHandle member =
      [("x", DynVal.obj [("type", DynVal.str "string")]),
       ("y", DynVal.obj [("type", DynVal.str "integer")])] := by
    cases member with
    | mk a b cdesc d e f g hh i j =>
      simp only [Schema.type] at hmty
      simp only [Schema.properties] at hmprops
      subst hmty; subst hmprops
      show allOfProps [("x", some sx), ("y", some sy)] = _
      simp only [allOfProps]
      rw [hx, hy]
  have htypeProps : (bodyPropToArg reqd propName ps).type = "object" ∧
      (bodyPropToArg reqd propName ps).properties = allOfHandle member := by
    cases ps with
    | mk pty ptitle pdesc penum pdflt preq pprops pitems pallOf pmin =>
      simp only [Schema.type] at hty
      simp only [Schema.allOf] at hallof
      subst hty; subst hallof
      exact ⟨rfl, rfl⟩
  refine ⟨rfl, htypeProps.1, ?_, ?_⟩
  · rw [htypeProps.2, hmem]
  · cases q with
    | mk a b cdesc d e f g hh i j =>
      simp only [Schema.type] at hqty
      simp only [Schema.description] at hqd
      simp only [Schema.allOf] at hqall
      subst hqty; subst hqd; subst hqall
      rfl

/-- C7 witness: the concrete schemas from the claim. -/
theorem allof_single_member_flattening_witness :
    (bodyPropToArg [] "p" c7prop).type = "object" ∧
    (bodyPropToArg [] "p" c7prop).properties =
      [("x", DynVal.obj [("type", DynVal.str "string")]),
       ("y", DynVal.obj [("type", DynVal.str "integer")])] := by
  have h := allof_single_member_flattening [] "p" c7prop c7member c7sx c7sy c7prop c7member
    rfl rfl rfl rfl rfl rfl rfl rfl rfl rfl rfl
  exact ⟨h.2.1, h.2.2.1⟩

/-- C8 (amended): the tool's security reference is the first scheme name of
the first security requirement that contains at least one scheme — empty
requirements are skipped, everything after that first scheme is ignored — and
an operation with no security requirements gets no reference. -/
theorem security_first_nonempty_requirement (path method : String) (op : Operation) :
    (createRequestTemplate path method op).security =
      (match op.security with
       | none => none
       | some reqs =>
         (specFirstNonEmptyScheme reqs).map
           (fun schemeName => { id := schemeName, passthrough := false })) := by
  show (match op.security with
    | none => none
    | some requirements =>
      (firstSchemeName requirements).map
        (fun schemeName => ({ id := schemeName, passthrough := false } : ToolSecurityRequirement))) = _
  cases op.security with
  | none => rfl
  | some reqs => simp only [firstSchemeName_eq_spec]

/-- C8 counterexample: when the first requirement is empty and the second
names "ApiKeyAuth", the code sets the reference from the second requirement,
while the claim's "first requirement's first scheme name" does not exist. -/
theorem security_skips_empty_first_requirement :
    (createRequestTemplate "/protected" "get" c8op).security =
      some { id := "ApiKeyAuth", passthrough := false } ∧
    c8op.security.map specFirstRequirementScheme = some none :=
  ⟨rfl, rfl⟩

theorem buildTools_error_of_failure (c : Converter) :
    ∀ (ops : List (String × String × Operation)) (path method : String) (op : Operation) (e : String),
      (path, method, op) ∈ ops → op.annotations = some (.error e) →
      ∃ path2 method2 op2 e2,
        (path2, method2, op2) ∈ ops ∧ op2.annotations = some (.error e2) ∧
        buildTools c ops = .error (annotationsFailureMsg method2 path2 e2)
  | [], path, method, op, e => by simp
  | (p0, m0, op0) :: rest, path, method, op, e => by
    intro hmem hann
    cases h0 : op0.annotations with
    | some r =>
      cases r with
      | error e0 =>
        refine ⟨p0, m0, op0, e0, List.mem_cons_self _ _, h0, ?_⟩
        have hco : convertOperation c p0 m0 op0 =
            .error ("failed to parse annotations for " ++ m0 ++ " " ++ p0 ++ ": " ++ e0) := by
          unfold convertOperation
          rw [h0]
        simp only [buildTools]
        rw [hco]
        rfl
      | ok m1 =>
        have htool : convertOperation c p0 m0 op0 =
            .ok { name := (if c.options.toolNamePrefix ≠ "" then
                             c.options.toolNamePrefix ++ c.parser.operationID p0 m0 op0
                           else c.parser.operationID p0 m0 op0),
                  description := getDescription op0,
                  args := sortByKey Arg.name
                    (convertParameters op0.parameters ++ convertRequestBody op0.requestBody),
                  requestTemplate := createRequestTemplate p0 m0 op0,
                  responseTemplate := createResponseTemplate op0,
                  errorResponseTemplate := none, security := none, annotations := m1 } := by
          unfold convertOperation
          rw [h0]
        rcases List.mem_cons.mp hmem with heq | htail
        · simp only [Prod.mk.injEq] at heq
          obtain ⟨rfl, rfl, rfl⟩ := heq
          rw [h0] at hann
          simp at hann
        · obtain ⟨p2, m2, op2, e2, hm2, ha2, hb2⟩ :=
            buildTools_error_of_failure c rest path method op e htail hann
          refine ⟨p2, m2, op2, e2, List.mem_cons_of_mem _ hm2, ha2, ?_⟩
          simp only [buildTools]
          rw [htool, hb2]
          rfl
    | none =>
      have htool : convertOperation c p0 m0 op0 =
          .ok { name := (if c.options.toolNamePrefix ≠ "" then
                           c.options.toolNamePrefix ++ c.parser.operationID p0 m0 op0
                         else c.parser.operationID p0 m0 op0),
                description := getDescription op0,
                args := sortByKey Arg.name
                  (convertParameters op0.parameters ++ convertRequestBody op0.requestBody),
                requestTemplate := createRequestTemplate p0 m0 op0,
                responseTemplate := createResponseTemplate op0,
                errorResponseTemplate := none, security := none, annotations := [] } := by
        unfold convertOperation
        rw [h0]
      rcases List.mem_cons.mp hmem with heq | htail
      · simp only [Prod.mk.injEq] at heq
        obtain ⟨rfl, rfl, rfl⟩ := heq
        rw [h0] at hann
        simp at hann
      · obtain ⟨p2, m2, op2, e2, hm2, ha2, hb2⟩ :=
          buildTools_error_of_failure c rest path method op e htail hann
        refine ⟨p2, m2, op2, e2, List.mem_cons_of_mem _ hm2, ha2, ?_⟩
        simp only [buildTools]
        rw [htool, hb2]
        rfl

/-- C9: when any operation's annotations fragment is present but malformed,
`Convert` returns an error — no configuration is emitted at all — and the
error message is qualified with the failing operation's method and path (both
by the outer `Convert` wrap and the inner annotations-parse message). -/
theorem convert_aborts_on_operation_failure (c : Converter) (doc : Document)
    (path method : String) (op : Operation) (e : String)
    (hdoc : c.parser.document = some doc)
    (hmem : (path, method, op) ∈ opsOfPaths c.parser.paths)
    (hann : op.annotations = some (.error e)) :
    ∃ path2 method2 op2 e2,
      (path2, method2, op2) ∈ opsOfPaths c.parser.paths ∧
      op2.annotations = some (.error e2) ∧
      Convert c = .error (annotationsFailureMsg method2 path2 e2) := by
  obtain ⟨p2, m2, op2, e2, hm2, ha2, hb2⟩ :=
    buildTools_error_of_failure c (opsOfPaths c.parser.paths) path method op e hmem hann
  refine ⟨p2, m2, op2, e2, hm2, ha2, ?_⟩
  rw [Convert_eq_of_doc c doc hdoc, hb2]

/-- C9 witness: a single operation with a malformed annotations fragment
aborts the concrete run with the operation-qualified message. -/
theorem convert_aborts_on_operation_failure_witness :
    ∃ path2 method2 op2 e2,
      (path2, method2, op2) ∈ opsOfPaths c9Converter.parser.paths ∧
      op2.annotations = some (.error e2) ∧
      Convert c9Converter = .error (annotationsFailureMsg method2 path2 e2) :=
  convert_aborts_on_operation_failure c9Converter emptyDoc "/pets" "get" c9op "invalid character"
    rfl
    (by rw [show opsOfPaths c9Converter.parser.paths = [("/pets", "get", c9op)] from rfl]
        exact List.mem_singleton.mpr rfl)
    rfl

/-- C10: applying an override template never changes `Server.Name`,
`Server.BaseURL` (nor `AllowTools`), and for every tool it preserves the
name, description, argument list, request URL and method (and the
annotations and error-response template): only the server config map,
security schemes, headers, static body, body-injection flags, security
references and response-template strings can change. -/
theorem template_merge_frame (tc : MCPConfigTemplate) (cfg : MCPConfig) :
    (applyTemplate tc cfg).server.name = cfg.server.name ∧
    (applyTemplate tc cfg).server.baseURL = cfg.server.baseURL ∧
    (applyTemplate tc cfg).server.allowTools = cfg.server.allowTools ∧
    (applyTemplate tc cfg).tools.map toolFrame = cfg.tools.map toolFrame := by
  refine ⟨applyTemplate_server_name tc cfg, applyTemplate_server_baseURL tc cfg,
          applyTemplate_server_allowTools tc cfg, ?_⟩
  rw [applyTemplate_tools]
  split
  · rw [List.map_map]
    exact List.map_congr_left (fun t _ => toolFrame_applyToolTemplate tc.tools t)
  · rfl

end OpenapiToMcp
